import Mathlib

set_option autoImplicit false
set_option maxRecDepth 16384

/-!
Verification of the scratchpad MCP server (`src/server.py`).

A document is modelled as its list of lines (the Python code splits the file
content on the newline character at the start of every operation and joins the
resulting line list back at the end, so the line list is the representation the
mutation engine actually works on).  Strings are Lean `String`s; timestamps of
the rate limiter are rationals (Python uses `time.time()` floats, ordered field
arithmetic is what the code relies on).  Fallible code returns `Except Err`.
-/

namespace Scratchpad

/-! ### Character and string primitives mirroring the Python string methods -/

/-- The whitespace characters stripped by Python's `str.strip()` (ASCII set). -/
def isPyWs (c : Char) : Bool :=
  c == ' ' || c == '\t' || c == '\n' || c == '\r' || c == '\x0b' || c == '\x0c'

/-- `leadsWith needle hay`: `hay` begins with the character sequence `needle`
(Python `str.startswith` on the underlying characters). -/
def leadsWith : List Char → List Char → Bool
  | [], _ => true
  | _ :: _, [] => false
  | a :: as, b :: bs => a == b && leadsWith as bs

/-- `hasSub needle hay`: `needle` occurs as a contiguous subsequence of `hay`
(Python's `needle in hay`). -/
def hasSub (needle : List Char) : List Char → Bool
  | [] => needle.isEmpty
  | b :: bs => leadsWith needle (b :: bs) || hasSub needle bs

/-- Python `pat in line` on strings. -/
def strContains (hay pat : String) : Bool := hasSub pat.data hay.data

/-- Python `line.startswith(pat)`. -/
def strStarts (hay pat : String) : Bool := leadsWith pat.data hay.data

/-- Python `str.strip()`. -/
def pyStrip (s : List Char) : List Char :=
  ((s.dropWhile isPyWs).reverse.dropWhile isPyWs).reverse

/-- Python `str.strip()` on `String`. -/
def pyStripStr (s : String) : String := String.mk (pyStrip s.data)

/-- Python `str.lower()` (ASCII case mapping, which covers the ASCII denylist
patterns the code matches case-insensitively). -/
def pyLower (s : List Char) : List Char := s.map Char.toLower

/-- Python `str.capitalize()`: first character upper-cased, rest lower-cased. -/
def pyCapitalize (s : String) : String :=
  match s.data with
  | [] => ""
  | c :: rest => String.mk (c.toUpper :: rest.map Char.toLower)

/-- Python `list.insert(idx, x)` (insert before `idx`; appends when `idx` is
past the end). -/
def pyInsert (l : List String) (idx : Nat) (x : String) : List String :=
  l.take idx ++ [x] ++ l.drop idx

/-- Repeated `list.insert(idx + k, xs[k])` as done when a fresh date section is
spliced into the document. -/
def insertBlock (l : List String) (idx : Nat) (xs : List String) : List String :=
  l.take idx ++ xs ++ l.drop idx

/-- First index `≥ i` whose line satisfies `p` (the `for i, line in
enumerate(lines)` + `break` search pattern). -/
def findIdxFrom (p : String → Bool) : List String → Nat → Option Nat
  | [], _ => none
  | l :: ls, i => if p l then some i else findIdxFrom p ls (i + 1)

/-- First index whose line satisfies `p`. -/
def findFirstIdx (p : String → Bool) (lines : List String) : Option Nat :=
  findIdxFrom p lines 0

/-- Decimal digits of a natural number, with structural fuel so that the
definition reduces inside the kernel (`natDigits` below always supplies
enough fuel, since `n / 10 < n` for `10 ≤ n`). -/
def natDigitsAux : Nat → Nat → List Char
  | 0, _ => []
  | fuel + 1, n =>
    if n < 10 then [Char.ofNat (48 + n)]
    else natDigitsAux fuel (n / 10) ++ [Char.ofNat (48 + n % 10)]

/-- Decimal digits of a natural number, mirroring Python `str(n)` for the
statistics counters. -/
def natDigits (n : Nat) : List Char := natDigitsAux (n + 1) n

/-- Python `str(n)` for a natural number. -/
def natToStr (n : Nat) : String := String.mk (natDigits n)

/-! ### Security configuration (`SecurityConfig`) -/

def MAX_REQUESTS_PER_MINUTE : Nat := 60

def RATE_LIMIT_WINDOW : ℚ := 60

def MAX_NOTE_LENGTH : Nat := 500

def MAX_TASK_LENGTH : Nat := 200

def MAX_FILE_SIZE : Nat := 1024 * 1024

/-- `SecurityConfig.BLOCKED_PATTERNS`: every entry of the Python list is (after
regex-unescaping) a literal substring searched case-insensitively. -/
def BLOCKED_PATTERNS : List String :=
  ["..", "$", "`", "<script", "javascript:", "file://", "\x00"]

/-- The failure kinds the server code can raise on the paths modelled here. -/
inductive Err where
  /-- `ValueError("Input contains blocked pattern: ...")` -/
  | blockedPattern (pat : String)
  /-- `ValueError("Invalid scratchpad format: missing ... section")` -/
  | missingSection (msg : String)
  /-- `ValueError("Rate limit exceeded...")` -/
  | rateLimited (wait : ℚ)
  /-- size limit exceeded on the `read`/`write` path -/
  | sizeExceeded
  /-- Python `IndexError` from a fixed-offset line assignment or read -/
  | indexError
  deriving DecidableEq, Repr

instance {ε α : Type} [DecidableEq ε] [DecidableEq α] : DecidableEq (Except ε α) :=
  fun a b =>
    match a, b with
    | .ok x, .ok y =>
      match decEq x y with
      | isTrue h => isTrue (by rw [h])
      | isFalse h => isFalse (fun hh => h (by injection hh))
    | .error x, .error y =>
      match decEq x y with
      | isTrue h => isTrue (by rw [h])
      | isFalse h => isFalse (fun hh => h (by injection hh))
    | .ok _, .error _ => isFalse (fun hh => Except.noConfusion hh)
    | .error _, .ok _ => isFalse (fun hh => Except.noConfusion hh)

/-! ### `InputValidator` -/

/-- One denylist pattern matched case-insensitively against text `t`
(`re.search(pattern, text, re.IGNORECASE)`; every pattern is a lower-case
literal). -/
def hitsPattern (t : List Char) (pat : String) : Bool :=
  hasSub pat.data (pyLower t)

/-- Does `t` contain any denylisted pattern? -/
def isBlocked (t : List Char) : Bool :=
  BLOCKED_PATTERNS.any (hitsPattern t)

/-- Newline collapsing (`text.replace('\n', ' ').replace('\r', ' ')`). -/
def collapseNewlines (t : List Char) : List Char :=
  t.map fun c => if c == '\n' || c == '\r' then ' ' else c

/-- Markdown table pipe escaping (`text.replace('|', '\\|')`). -/
def escapePipes (t : List Char) : List Char :=
  t.flatMap fun c => if c == '|' then ['\\', '|'] else [c]

/-- Control character removal (`ord(char) >= 32 or char in '\n\r\t'`). -/
def dropControl (t : List Char) : List Char :=
  t.filter fun c => 32 ≤ c.toNat || c == '\n' || c == '\r' || c == '\t'

/-- `InputValidator.sanitize_text`: strip, truncate to `maxLength`, reject
denylisted patterns, collapse newlines unless allowed, escape pipes, drop
control characters. -/
def sanitize_text (text : String) (maxLength : Nat) (allowNewlines : Bool) :
    Except Err String :=
  let t := (pyStrip text.data).take maxLength
  match BLOCKED_PATTERNS.find? (fun p => hitsPattern t p) with
  | some p => .error (.blockedPattern p)
  | none =>
    let t1 := if allowNewlines then t else collapseNewlines t
    .ok (String.mk (dropControl (escapePipes t1)))

/-- `InputValidator.validate_enum`: lower-case, strip, membership check with a
silent default. -/
def validate_enum (value : String) (allowed : List String) (default : String) :
    String :=
  let v := String.mk (pyStrip (pyLower value.data))
  if allowed.contains v then v else default

/-! ### `RateLimiter` -/

/-- Result triple of `RateLimiter.is_allowed` together with the queue it leaves
behind. -/
structure AllowResult where
  allowed : Bool
  waitTime : Option ℚ
  reqs : List ℚ
  deriving DecidableEq, Repr

/-- The eviction loop `while self.requests and self.requests[0] < now -
window: popleft()`. -/
def evictOld (window now : ℚ) (reqs : List ℚ) : List ℚ :=
  reqs.dropWhile fun t => decide (t < now - window)

/-- `RateLimiter.is_allowed` for a limiter with limit `maxRequests` and window
`window`, called at time `now` with queue `reqs` (oldest first).  In the
rejection branch the queue is provably nonempty whenever `1 ≤ maxRequests`,
matching the Python `self.requests[0]` access. -/
def is_allowed (maxRequests : Nat) (window : ℚ) (now : ℚ) (reqs : List ℚ) :
    AllowResult :=
  let r := evictOld window now reqs
  if r.length < maxRequests then
    ⟨true, none, r ++ [now]⟩
  else
    ⟨false, some (window - (now - r.headI)), r⟩

/-- Queue left by a successful, rate-checked request at time `now`. -/
def gatePass (now : ℚ) (reqs : List ℚ) : List ℚ :=
  evictOld RATE_LIMIT_WINDOW now reqs ++ [now]

/-! ### Emoji tables and section headers -/

def TYPE_EMOJIS : List (String × String) :=
  [("idea", "💡"), ("bug", "🐛"), ("feature", "✨"), ("question", "❓"),
   ("contact", "📞"), ("refactor", "🔧"), ("task", "📝"), ("note", "📌")]

def PRIORITY_EMOJIS : List (String × String) :=
  [("high", "🔴"), ("medium", "🟡"), ("low", "🟢")]

/-- Dictionary lookup `d[k]` (always called on a key known to be present). -/
def assocGet (l : List (String × String)) (k : String) : String :=
  ((l.find? fun p => p.1 == k).map Prod.snd).getD ""

def HDR_FOCUS : String := "## 🎯 Current Focus"

def HDR_INTERRUPTIONS : String := "## 💡 Interruptions / Ideas"

def HDR_REVIEW : String := "## 🔄 To Review Later"

def HDR_COMPLETED : String := "## ✅ Completed Today"

def HDR_ARCHIVED : String := "## 🗑️ Archived / Dismissed"

def HDR_OLD_IDEAS : String := "### Old Ideas / Resolved Items"

def HDR_STATS : String := "## 📊 Usage Statistics"

/-- UTF-8 byte size of the file content `"\n".join(lines)` written to disk. -/
def docByteSize (lines : List String) : Nat :=
  (lines.map String.utf8ByteSize).sum + (lines.length - 1)

/-! ### The template (`ScratchpadManager._get_template`), line by line -/

/-- The lines of the fresh scratchpad template for creation date `date`
(the template string ends with a newline, hence the final empty line). -/
def templateLines (date : String) : List String :=
  ["# 📋 AI Scratchpad",
   "",
   "A dynamic workspace for tracking tasks, ideas, and interruptions during development sessions.",
   "",
   "---",
   "",
   "## 🎯 Current Focus",
   "",
   "**Started:** `--:--`  ",
   "**Task:** _No active task_",
   "",
   "---",
   "",
   "## 💡 Interruptions / Ideas",
   "",
   "Quick-capture zone for thoughts that pop up during focused work.",
   "",
   "### 📅 " ++ date,
   "",
   "| Time | Type | Note | Priority |",
   "|------|------|------|----------|",
   "| _No entries yet_ | | | |",
   "",
   "**Legend:**",
   "- **Types:** 💡 Idea | 🐛 Bug | ✨ Feature | ❓ Question | 📞 Contact | 🔧 Refactor | 📝 Task | 📌 Note",
   "- **Priority:** 🔴 High | 🟡 Medium | 🟢 Low",
   "",
   "---",
   "",
   "## 🔄 To Review Later",
   "",
   "Items logged during work sessions that need follow-up or consideration.",
   "",
   "_Empty - all caught up!_",
   "",
   "---",
   "",
   "## ✅ Completed Today",
   "",
   "### 📅 " ++ date,
   "",
   "_No completions yet_",
   "",
   "---",
   "",
   "## 🗑️ Archived / Dismissed",
   "",
   "<details>",
   "<summary>Click to expand archived items</summary>",
   "",
   "### Old Ideas / Resolved Items",
   "",
   "_Nothing archived yet_",
   "",
   "</details>",
   "",
   "---",
   "",
   "## 📊 Usage Statistics",
   "",
   "- **Total Ideas Logged:** 0",
   "- **Items Completed:** 0",
   "- **Items Archived:** 0",
   "- **Last Updated:** " ++ date,
   "",
   "---",
   "",
   "## 🔧 Quick Reference",
   "",
   "### Auto-logging Triggers",
   "When these phrases are detected, items are automatically logged:",
   "- \"Remind me to...\"",
   "- \"I should...\"",
   "- \"Don" ++ String.singleton (Char.ofNat 39) ++ "t forget...\"",
   "- \"Later I need to...\"",
   "- \"Oh, I just thought of...\"",
   "",
   "### Workflow",
   "1. **During Work:** Mention off-topic ideas → AI asks to log → Continues main task",
   "2. **Starting Task:** Update Current Focus section",
   "3. **Completing Items:** Move from \"To Review Later\" to \"Completed Today\"",
   "4. **Dismissing Items:** Move to \"Archived / Dismissed\"",
   "",
   "---",
   "",
   "_Last session: " ++ date ++ " at --:--_",
   ""]

/-! ### Section scans -/

/-- Python truthiness of an `Optional[int]` index variable (`None` and `0` are
falsy), as used in the scan conditions `elif interruptions_idx and ...`. -/
def truthy : Option Nat → Bool
  | none => false
  | some n => n != 0

/-- The `log_interruption` scan: one pass over the enumerated lines without a
break, recording the Interruptions header, today's date header and the last
table row (`startswith("|")`, no `"---"`). -/
def liScanAux (dateHeader : String) :
    List String → Nat → Option Nat → Option Nat → Option Nat →
    Option Nat × Option Nat × Option Nat
  | [], _, ii, di, ti => (ii, di, ti)
  | l :: ls, i, ii, di, ti =>
    if strContains l HDR_INTERRUPTIONS then
      liScanAux dateHeader ls (i + 1) (some i) di ti
    else if truthy ii && strContains l dateHeader then
      liScanAux dateHeader ls (i + 1) ii (some i) ti
    else if truthy di && strStarts l "|" && !strContains l "---" then
      liScanAux dateHeader ls (i + 1) ii di (some i)
    else
      liScanAux dateHeader ls (i + 1) ii di ti

def liScan (dateHeader : String) (lines : List String) :
    Option Nat × Option Nat × Option Nat :=
  liScanAux dateHeader lines 0 none none none

/-- The `mark_completed` scan: records the Completed header (no break) and
breaks at today's date header once the Completed index is truthy. -/
def mcScanAux (dateHeader : String) :
    List String → Nat → Option Nat → Option Nat × Option Nat
  | [], _, ci => (ci, none)
  | l :: ls, i, ci =>
    if strContains l HDR_COMPLETED then
      mcScanAux dateHeader ls (i + 1) (some i)
    else if truthy ci && strContains l dateHeader then
      (ci, some i)
    else
      mcScanAux dateHeader ls (i + 1) ci

def mcScan (dateHeader : String) (lines : List String) :
    Option Nat × Option Nat :=
  mcScanAux dateHeader lines 0 none

/-! ### The mutation operations (`ScratchpadManager`), content level

Each `_core` function is the method body after input sanitisation: it maps the
current line list to the new line list or to the error the method raises.  The
wrapper with the method's name adds the `InputValidator` calls. -/

/-- `log_interruption` after sanitisation: locate / create today's table under
the Interruptions section and place the new row. -/
def log_interruption_core (lines : List String)
    (note type_key priority : String) (time_str date_str : String) :
    Except Err (List String) :=
  let date_header := "### 📅 " ++ date_str
  let type_emoji := assocGet TYPE_EMOJIS type_key
  let priority_emoji := assocGet PRIORITY_EMOJIS priority
  let type_label := pyCapitalize type_key
  let new_entry := "| `" ++ time_str ++ "` | " ++ type_emoji ++ " " ++
    type_label ++ " | " ++ note ++ " | " ++ priority_emoji ++ " |"
  match liScan date_header lines with
  | (_, some _, some ti) =>
    if strContains (lines.getD ti "") "_No entries yet_" then
      .ok (lines.set ti new_entry)
    else
      .ok (pyInsert lines (ti + 1) new_entry)
  | (some ii, _, _) =>
    .ok (insertBlock lines (ii + 3)
      ["", date_header, "", "| Time | Type | Note | Priority |",
       "|------|------|------|----------|", new_entry])
  | (none, _, _) =>
    .error (.missingSection "Invalid scratchpad format: missing Interruptions section")

/-- `log_interruption` (content level).  Note: unlike the other three content
mutations, the Python method does not call `_update_statistics`. -/
def log_interruption (lines : List String)
    (note type_key priority : String) (time_str date_str : String) :
    Except Err (List String) :=
  match sanitize_text note MAX_NOTE_LENGTH false with
  | .error e => .error e
  | .ok note' =>
    let type' := validate_enum type_key (TYPE_EMOJIS.map Prod.fst) "idea"
    let pri' := validate_enum priority (PRIORITY_EMOJIS.map Prod.fst) "medium"
    log_interruption_core lines note' type' pri' time_str date_str

/-- `update_focus` after sanitisation: overwrite the two fixed-offset lines
below the Current Focus header. -/
def update_focus_core (lines : List String) (task time_str : String) :
    Except Err (List String) :=
  match findFirstIdx (fun l => strContains l HDR_FOCUS) lines with
  | none =>
    .error (.missingSection "Invalid scratchpad format: missing Current Focus section")
  | some f =>
    if f + 3 < lines.length then
      .ok ((lines.set (f + 2) ("**Started:** `" ++ time_str ++ "`  ")).set
        (f + 3) ("**Task:** " ++ task))
    else
      .error .indexError

/-- `update_focus` (content level). -/
def update_focus (lines : List String) (task time_str : String) :
    Except Err (List String) :=
  match sanitize_text task MAX_TASK_LENGTH false with
  | .error e => .error e
  | .ok task' => update_focus_core lines task' time_str

/-- `add_to_review_later` after sanitisation: replace the empty-state sentinel
at header+4 or insert before the next `---` separator line. -/
def add_to_review_later_core (lines : List String) (note : String) :
    Except Err (List String) :=
  match findFirstIdx (fun l => strContains l HDR_REVIEW) lines with
  | none =>
    .error (.missingSection "Invalid scratchpad format: missing To Review Later section")
  | some r =>
    if r + 4 < lines.length then
      if strContains (lines.getD (r + 4) "") "_Empty - all caught up!_" then
        .ok (lines.set (r + 4) ("- [ ] " ++ note))
      else
        let insert_idx :=
          (findIdxFrom (fun l => pyStripStr l == "---") (lines.drop (r + 4))
            (r + 4)).getD (r + 4)
        .ok (pyInsert lines insert_idx ("- [ ] " ++ note))
    else
      .error .indexError

/-- `add_to_review_later` (content level, before the statistics pass). -/
def add_to_review_later (lines : List String) (note : String) :
    Except Err (List String) :=
  match sanitize_text note MAX_NOTE_LENGTH false with
  | .error e => .error e
  | .ok note' => add_to_review_later_core lines note'

/-- `mark_completed` after sanitisation: replace today's "no completions"
sentinel, insert after it, or splice a fresh date section at header+3. -/
def mark_completed_core (lines : List String)
    (note time_str date_str : String) : Except Err (List String) :=
  let date_header := "### 📅 " ++ date_str
  let completion_entry := "- [x] " ++ note ++ " _(" ++ time_str ++ ")_"
  match mcScan date_header lines with
  | (none, _) =>
    .error (.missingSection "Invalid scratchpad format: missing Completed Today section")
  | (some _, some di) =>
    if di + 2 < lines.length then
      if strContains (lines.getD (di + 2) "") "_No completions yet_" then
        .ok (lines.set (di + 2) completion_entry)
      else
        .ok (pyInsert lines (di + 3) completion_entry)
    else
      .error .indexError
  | (some ci, none) =>
    .ok (insertBlock lines (ci + 3) ["", date_header, "", completion_entry])

/-- `mark_completed` (content level, before the statistics pass). -/
def mark_completed (lines : List String) (note time_str date_str : String) :
    Except Err (List String) :=
  match sanitize_text note MAX_NOTE_LENGTH false with
  | .error e => .error e
  | .ok note' => mark_completed_core lines note' time_str date_str

/-- `archive_item` after sanitisation: replace the "nothing archived" sentinel
at Old Ideas+2 or insert at Old Ideas+3. -/
def archive_item_core (lines : List String) (note date_str : String) :
    Except Err (List String) :=
  match findFirstIdx (fun l => strContains l HDR_ARCHIVED) lines with
  | none =>
    .error (.missingSection "Invalid scratchpad format: missing Archived section")
  | some ai =>
    match findIdxFrom (fun l => strContains l HDR_OLD_IDEAS) (lines.drop ai) ai with
    | none =>
      .error (.missingSection "Invalid scratchpad format: missing Old Ideas section")
    | some oi =>
      let item := "- ~~" ++ note ++ "~~ _(" ++ date_str ++ ")_"
      if oi + 2 < lines.length then
        if strContains (lines.getD (oi + 2) "") "_Nothing archived yet_" then
          .ok (lines.set (oi + 2) item)
        else
          .ok (pyInsert lines (oi + 3) item)
      else
        .error .indexError

/-- `archive_item` (content level, before the statistics pass). -/
def archive_item (lines : List String) (note date_str : String) :
    Except Err (List String) :=
  match sanitize_text note MAX_NOTE_LENGTH false with
  | .error e => .error e
  | .ok note' => archive_item_core lines note'  date_str

/-! ### `_update_statistics` -/

/-- State of the counting pass of `_update_statistics`. -/
structure StatState where
  inI : Bool
  inC : Bool
  inA : Bool
  logged : Nat
  completed : Nat
  archived : Nat
  deriving DecidableEq, Repr

def statInit : StatState := ⟨false, false, false, 0, 0, 0⟩

/-- One iteration of the counting loop: first the section-flag `if/elif`
chain (note that any line starting with `##` — including `###` subsection
headers — resets all flags), then the counting `if/elif` chain on the updated
flags. -/
def statStep (st : StatState) (line : String) : StatState :=
  let st1 :=
    if strContains line HDR_INTERRUPTIONS then
      { st with inI := true, inC := false, inA := false }
    else if strContains line HDR_COMPLETED then
      { st with inI := false, inC := true, inA := false }
    else if strContains line HDR_ARCHIVED then
      { st with inI := false, inC := false, inA := true }
    else if strStarts line "##" then
      { st with inI := false, inC := false, inA := false }
    else st
  if st1.inI && strStarts line "| `" then { st1 with logged := st1.logged + 1 }
  else if st1.inC && strStarts line "- [x]" then
    { st1 with completed := st1.completed + 1 }
  else if st1.inA && strStarts line "- ~~" then
    { st1 with archived := st1.archived + 1 }
  else st1

/-- The full counting pass of `_update_statistics`. -/
def countStats (lines : List String) : StatState :=
  lines.foldl statStep statInit

/-- The four statistics lines written for counters `st` and date `date_str`. -/
def statLines (st : StatState) (date_str : String) : List String :=
  ["- **Total Ideas Logged:** " ++ natToStr st.logged,
   "- **Items Completed:** " ++ natToStr st.completed,
   "- **Items Archived:** " ++ natToStr st.archived,
   "- **Last Updated:** " ++ date_str]

/-- Overwrite the four fixed-offset statistics lines below index `s`. -/
def setStats (lines : List String) (s : Nat) (st : StatState)
    (date_str : String) : List String :=
  ((((lines.set (s + 2) ("- **Total Ideas Logged:** " ++ natToStr st.logged)).set
    (s + 3) ("- **Items Completed:** " ++ natToStr st.completed)).set
    (s + 4) ("- **Items Archived:** " ++ natToStr st.archived)).set
    (s + 5) ("- **Last Updated:** " ++ date_str))

/-- `_update_statistics`, returning the document left on disk, or the
`IndexError` the fixed-offset assignments raise on a malformed statistics
section.  When the statistics header is absent, or the rewritten document
would exceed the size limit, no write happens and the document is returned
unchanged (the silent-skip behaviour of the Python code). -/
def update_statistics (lines : List String) (date_str : String) :
    Except Err (List String) :=
  let st := countStats lines
  match findFirstIdx (fun l => strContains l HDR_STATS) lines with
  | none => .ok lines
  | some s =>
    if s + 5 < lines.length then
      let newLines := setStats lines s st date_str
      if docByteSize newLines ≤ MAX_FILE_SIZE then .ok newLines else .ok lines
    else .error .indexError

/-- Document left on disk by `_update_statistics` (on any raised error the
write never happened, so the document is unchanged). -/
def statsDisk (lines : List String) (date_str : String) : List String :=
  match update_statistics lines date_str with
  | .ok l => l
  | .error _ => lines

/-! ### Full content mutations (primary mutation followed by the statistics
pass, as the three methods that invoke `_update_statistics` do) -/

def add_to_review_later_full (lines : List String) (note date_str : String) :
    Except Err (List String) :=
  match add_to_review_later lines note with
  | .error e => .error e
  | .ok c => update_statistics c date_str

def mark_completed_full (lines : List String) (note time_str date_str : String) :
    Except Err (List String) :=
  match mark_completed lines note time_str date_str with
  | .error e => .error e
  | .ok c => update_statistics c date_str

def archive_item_full (lines : List String) (note date_str : String) :
    Except Err (List String) :=
  match archive_item lines note date_str with
  | .error e => .error e
  | .ok c => update_statistics c date_str

/-! ### The manager with its rate limiter (`ScratchpadManager`)

The manager owns the single rate-limiter queue and the document.  Each
`_check_rate_limit` call happens at its own `time.time()` instant, so every
gated step of an operation takes its own time parameter. -/

/-- Rate limiter queue plus the document on disk. -/
structure MState where
  reqs : List ℚ
  content : List String
  deriving DecidableEq, Repr

/-- `_check_rate_limit`: raises when the limiter rejects, otherwise returns
the updated queue. -/
def check_rate (now : ℚ) (reqs : List ℚ) : Except Err (List ℚ) :=
  let r := is_allowed MAX_REQUESTS_PER_MINUTE RATE_LIMIT_WINDOW now reqs
  if r.allowed then .ok r.reqs else .error (.rateLimited (r.waitTime.getD 0))

/-- `read_scratchpad`: rate check, then the file-size validation (the document
is modelled as existing). -/
def read_sp (now : ℚ) (s : MState) : Except Err MState :=
  match check_rate now s.reqs with
  | .error e => .error e
  | .ok rq =>
    if MAX_FILE_SIZE < docByteSize s.content then .error .sizeExceeded
    else .ok ⟨rq, s.content⟩

/-- `write_scratchpad`: rate check, then the content-size validation, then the
write. -/
def write_sp (now : ℚ) (reqs : List ℚ) (c : List String) : Except Err MState :=
  match check_rate now reqs with
  | .error e => .error e
  | .ok rq =>
    if MAX_FILE_SIZE < docByteSize c then .error .sizeExceeded
    else .ok ⟨rq, c⟩

/-- `_update_statistics` at manager level: it re-reads the document through
the rate-limited `read_scratchpad`, then writes directly (no rate check). -/
def update_statistics_call (now : ℚ) (s : MState) (date_str : String) :
    Except Err MState :=
  match read_sp now s with
  | .error e => .error e
  | .ok s1 =>
    match update_statistics s1.content date_str with
    | .error e => .error e
    | .ok c' => .ok ⟨s1.reqs, c'⟩

/-- Manager method `log_interruption`: sanitize, gated read, mutate, gated
write.  No statistics pass. -/
def log_interruption_call (s : MState) (note type_key priority : String)
    (time_str date_str : String) (t1 t2 : ℚ) : Except Err MState :=
  match sanitize_text note MAX_NOTE_LENGTH false with
  | .error e => .error e
  | .ok note' =>
    let type' := validate_enum type_key (TYPE_EMOJIS.map Prod.fst) "idea"
    let pri' := validate_enum priority (PRIORITY_EMOJIS.map Prod.fst) "medium"
    match read_sp t1 s with
    | .error e => .error e
    | .ok s1 =>
      match log_interruption_core s1.content note' type' pri' time_str date_str with
      | .error e => .error e
      | .ok c' => write_sp t2 s1.reqs c'

/-- Manager method `update_focus`: sanitize, gated read, mutate, gated write.
No statistics pass. -/
def update_focus_call (s : MState) (task time_str : String) (t1 t2 : ℚ) :
    Except Err MState :=
  match sanitize_text task MAX_TASK_LENGTH false with
  | .error e => .error e
  | .ok task' =>
    match read_sp t1 s with
    | .error e => .error e
    | .ok s1 =>
      match update_focus_core s1.content task' time_str with
      | .error e => .error e
      | .ok c' => write_sp t2 s1.reqs c'

/-- Manager method `add_to_review_later`: sanitize, gated read, mutate, gated
write, then the statistics pass (whose read is gated again). -/
def add_to_review_later_call (s : MState) (note date_str : String)
    (t1 t2 t3 : ℚ) : Except Err MState :=
  match sanitize_text note MAX_NOTE_LENGTH false with
  | .error e => .error e
  | .ok note' =>
    match read_sp t1 s with
    | .error e => .error e
    | .ok s1 =>
      match add_to_review_later_core s1.content note' with
      | .error e => .error e
      | .ok c' =>
        match write_sp t2 s1.reqs c' with
        | .error e => .error e
        | .ok s2 => update_statistics_call t3 s2 date_str

/-- Manager method `mark_completed`: sanitize, gated read, mutate, gated
write, then the statistics pass (whose read is gated again). -/
def mark_completed_call (s : MState) (note time_str date_str : String)
    (t1 t2 t3 : ℚ) : Except Err MState :=
  match sanitize_text note MAX_NOTE_LENGTH false with
  | .error e => .error e
  | .ok note' =>
    match read_sp t1 s with
    | .error e => .error e
    | .ok s1 =>
      match mark_completed_core s1.content note' time_str date_str with
      | .error e => .error e
      | .ok c' =>
        match write_sp t2 s1.reqs c' with
        | .error e => .error e
        | .ok s2 => update_statistics_call t3 s2 date_str

/-- Manager method `archive_item`: sanitize, gated read, mutate, gated write,
then the statistics pass (whose read is gated again). -/
def archive_item_call (s : MState) (note date_str : String) (t1 t2 t3 : ℚ) :
    Except Err MState :=
  match sanitize_text note MAX_NOTE_LENGTH false with
  | .error e => .error e
  | .ok note' =>
    match read_sp t1 s with
    | .error e => .error e
    | .ok s1 =>
      match archive_item_core s1.content note' date_str with
      | .error e => .error e
      | .ok c' =>
        match write_sp t2 s1.reqs c' with
        | .error e => .error e
        | .ok s2 => update_statistics_call t3 s2 date_str

/-! ### Derived notions used to state the claims -/

/-- The top-level section of the document anchored at the first line
containing `hdr`: that line and everything up to (excluding) the next line
that starts a top-level section (`"## "`). -/
def sectionOf (hdr : String) (lines : List String) : List String :=
  match lines.dropWhile (fun l => !strContains l hdr) with
  | [] => []
  | h :: t => h :: t.takeWhile (fun l => !strStarts l "## ")

/-- No line of the document contains `hdr` (the anchor header is absent). -/
def headerAbsent (hdr : String) (lines : List String) : Bool :=
  lines.all fun l => !strContains l hdr

/-- Document left on disk by a content-level operation result (on error the
write never happened). -/
def diskAfter (r : Except Err (List String)) (lines : List String) :
    List String :=
  match r with
  | .ok c => c
  | .error _ => lines

/-- A line is *count-inert* when the statistics counting pass ignores it
completely: it mentions none of the three counted section headers, does not
start a top-level section (`##`), and is not itself a countable row or item.
Every line the statistics writer produces, and all four statistics lines of
a template-shaped document, are count-inert. -/
def inertLine (l : String) : Bool :=
  !strContains l HDR_INTERRUPTIONS && !strContains l HDR_COMPLETED &&
    !strContains l HDR_ARCHIVED && !strStarts l "##" && !strStarts l "| `" &&
    !strStarts l "- [x]" && !strStarts l "- ~~"

/-- The four lines that `_update_statistics` overwrites are count-inert (or
there is nothing to overwrite).  This holds for every template-derived
document. -/
def statsInert (lines : List String) : Bool :=
  match findFirstIdx (fun l => strContains l HDR_STATS) lines with
  | none => true
  | some s => ((lines.drop (s + 2)).take 4).all inertLine

/-- A document whose statistics block contains a planted section header:
the idempotence counterexample for the statistics recomputation. -/
def c7doc : List String :=
  ["## 📊 Usage Statistics", "", "## 💡 Interruptions / Ideas", "x", "y",
   "z", "| `10:00` | a | b | c |"]

/-- Template-scenario documents used for the frame-property claim: the fresh
template, after `mark_completed("Ship release")`, and after
`archive_item("Old idea")`. -/
def c8doc0 : List String := templateLines "12/10/2025"

def c8doc1 : List String := c8doc0.set 41 "- [x] Ship release _(10:00)_"

def c8doc2 : List String := c8doc1.set 52 "- ~~Old idea~~ _(12/10/2025)_"

/-- Concrete gateway runs used to witness the rate-limiter admission counts:
each starts from an empty limiter queue and the fresh template, with the
gated steps at times 0, 1 (and 2 for the statistics-invoking operations). -/
def c10run1 : Except Err MState :=
  log_interruption_call ⟨[], templateLines "12/10/2025"⟩ "a" "idea" "medium"
    "10:00" "12/10/2025" 0 1

def c10run2 : Except Err MState :=
  update_focus_call ⟨[], templateLines "12/10/2025"⟩ "t" "10:00" 0 1

def c10run3 : Except Err MState :=
  add_to_review_later_call ⟨[], templateLines "12/10/2025"⟩ "a" "12/10/2025"
    0 1 2

def c10run4 : Except Err MState :=
  mark_completed_call ⟨[], templateLines "12/10/2025"⟩ "a" "10:00"
    "12/10/2025" 0 1 2

def c10run5 : Except Err MState :=
  archive_item_call ⟨[], templateLines "12/10/2025"⟩ "a" "12/10/2025" 0 1 2

/-! ## Supporting lemmas -/

theorem leadsWith_iff (n : List Char) : ∀ h : List Char,
    leadsWith n h = true ↔ ∃ t, h = n ++ t := by
  induction n with
  | nil =>
    intro h
    simp [leadsWith]
  | cons a as ih =>
    intro h
    cases h with
    | nil =>
      simp [leadsWith]
    | cons b bs =>
      simp only [leadsWith, Bool.and_eq_true, beq_iff_eq, ih bs]
      constructor
      · rintro ⟨rfl, t, rfl⟩
        exact ⟨t, rfl⟩
      · rintro ⟨t, ht⟩
        cases ht
        exact ⟨rfl, t, rfl⟩

theorem hasSub_iff (n : List Char) : ∀ h : List Char,
    hasSub n h = true ↔ ∃ pre post, h = pre ++ n ++ post := by
  intro h
  induction h with
  | nil =>
    simp only [hasSub, List.isEmpty_iff]
    constructor
    · rintro rfl
      exact ⟨[], [], rfl⟩
    · rintro ⟨pre, post, hh⟩
      rcases List.append_eq_nil.mp hh.symm with ⟨hpn, -⟩
      rcases List.append_eq_nil.mp hpn with ⟨-, hn⟩
      exact hn
  | cons b bs ih =>
    simp only [hasSub, Bool.or_eq_true, leadsWith_iff, ih]
    constructor
    · rintro (⟨t, ht⟩ | ⟨pre, post, rfl⟩)
      · exact ⟨[], t, by simpa using ht⟩
      · exact ⟨b :: pre, post, rfl⟩
    · rintro ⟨pre, post, hh⟩
      cases pre with
      | nil =>
        left
        exact ⟨post, by simpa using hh⟩
      | cons p ps =>
        right
        simp only [List.cons_append, List.cons.injEq] at hh
        exact ⟨ps, post, hh.2⟩

/-- A substring hit survives extending the text on either side. -/
theorem hasSub_extend (n pre post h : List Char)
    (hh : hasSub n h = true) : hasSub n (pre ++ h ++ post) = true := by
  rcases (hasSub_iff n h).mp hh with ⟨a, b, rfl⟩
  exact (hasSub_iff n _).mpr ⟨pre ++ a, b ++ post, by simp⟩

/-- `dropWhile` removes a prefix. -/
theorem dropWhile_append_of (p : Char → Bool) :
    ∀ s : List Char, ∃ pre, s = pre ++ s.dropWhile p := by
  intro s
  induction s with
  | nil => exact ⟨[], rfl⟩
  | cons c cs ih =>
    by_cases h : p c
    · rcases ih with ⟨pre, hpre⟩
      exact ⟨c :: pre, by simp [List.dropWhile, h, ← hpre]⟩
    · exact ⟨[], by simp [List.dropWhile, h]⟩

/-- `pyStrip` keeps a contiguous substring of the input. -/
theorem pyStrip_infix (s : List Char) :
    ∃ pre post, s = pre ++ pyStrip s ++ post := by
  rcases dropWhile_append_of isPyWs s with ⟨pre, hpre⟩
  rcases dropWhile_append_of isPyWs (s.dropWhile isPyWs).reverse with ⟨q, hq⟩
  refine ⟨pre, q.reverse, ?_⟩
  have hsplit : s.dropWhile isPyWs = pyStrip s ++ q.reverse := by
    have := congrArg List.reverse hq
    simpa [pyStrip] using this
  conv_lhs => rw [hpre]
  rw [hsplit, List.append_assoc]

/-- The stripped-and-truncated text is a contiguous substring of the input. -/
theorem stripTake_infix (s : List Char) (k : Nat) :
    ∃ pre post, s = pre ++ (pyStrip s).take k ++ post := by
  rcases pyStrip_infix s with ⟨pre, post, hs⟩
  have h1 : pyStrip s = (pyStrip s).take k ++ (pyStrip s).drop k :=
    (List.take_append_drop _ _).symm
  rw [h1] at hs
  refine ⟨pre, (pyStrip s).drop k ++ post, ?_⟩
  conv_lhs => rw [hs]
  simp only [List.append_assoc]

/-- Pattern hits are monotone under extending the text (case-insensitive
matching included, since `pyLower` maps over the characters). -/
theorem isBlocked_extend (pre post h : List Char)
    (hb : isBlocked h = true) : isBlocked (pre ++ h ++ post) = true := by
  rcases List.any_eq_true.mp hb with ⟨p, hp, hhit⟩
  refine List.any_eq_true.mpr ⟨p, hp, ?_⟩
  unfold hitsPattern at hhit ⊢
  rw [pyLower, List.map_append, List.map_append]
  exact hasSub_extend _ _ _ _ hhit

/-- Unfolding equation for `sanitize_text` with the stripped/truncated text
written out. -/
theorem sanitize_text_eq (text : String) (maxLength : Nat)
    (allowNewlines : Bool) :
    sanitize_text text maxLength allowNewlines =
      match BLOCKED_PATTERNS.find? (fun p =>
          hitsPattern ((pyStrip text.data).take maxLength) p) with
      | some p => .error (.blockedPattern p)
      | none =>
        .ok (String.mk (dropControl (escapePipes
          (if allowNewlines then (pyStrip text.data).take maxLength
           else collapseNewlines ((pyStrip text.data).take maxLength))))) :=
  rfl

theorem escapePipes_length_le (t : List Char) :
    (escapePipes t).length ≤ 2 * t.length := by
  induction t with
  | nil => simp [escapePipes]
  | cons c cs ih =>
    have hcons : escapePipes (c :: cs) =
        (if c == '|' then ['\\', '|'] else [c]) ++ escapePipes cs := by
      simp [escapePipes]
    rw [hcons, List.length_append, List.length_cons]
    by_cases h : c == '|' <;> simp [h] <;> omega

/-! ## Claim C2 -/

/-- Claim C2 (amended): for `len(text) > maxLen`, a successful
`sanitize_text(text, maxLen, allowNewlines)` returns a string of length at
most `2 * maxLen` (the pipe-escaping step rewrites `|` to the two-character
sequence `\|` after truncation, so the bound `maxLen` of the original claim
can be exceeded, but never more than doubled). -/
theorem c2_sanitize_length (text : String) (maxLength : Nat)
    (allowNewlines : Bool) (r : String) (_hlen : maxLength < text.length)
    (h : sanitize_text text maxLength allowNewlines = .ok r) :
    r.length ≤ 2 * maxLength := by
  rw [sanitize_text_eq] at h
  cases hf : BLOCKED_PATTERNS.find? (fun p =>
      hitsPattern ((pyStrip text.data).take maxLength) p) with
  | some p =>
    rw [hf] at h
    simp at h
  | none =>
    rw [hf] at h
    simp only [Except.ok.injEq] at h
    subst h
    show (dropControl (escapePipes _)).length ≤ 2 * maxLength
    refine le_trans (List.length_filter_le _ _) ?_
    refine le_trans (escapePipes_length_le _) ?_
    have htake : ((pyStrip text.data).take maxLength).length ≤ maxLength :=
      List.length_take_le _ _
    by_cases hnl : allowNewlines
    · simp only [if_pos hnl]
      omega
    · simp only [if_neg hnl, collapseNewlines, List.length_map]
      omega

/-- Witness for C2 at a concrete input. -/
theorem c2_sanitize_length_witness : ("ab" : String).length ≤ 2 * 2 :=
  c2_sanitize_length "abc||" 2 false "ab" (by decide) (by decide)

/-- Counterexample to C2 as stated: `sanitize_text "||" 1 False` succeeds with
the two-character result `\|`, which is longer than `maxLen = 1` although
`len("||") = 2 > 1`. -/
theorem c2_counterexample :
    sanitize_text "||" 1 false = .ok "\\|" ∧
      ¬ (("\\|" : String).length ≤ 1) := by
  decide

/-! ## Claim C3 -/

/-- Claim C3 (amended): the denylist check of `sanitize_text` applies to the
stripped-and-truncated text, not the raw input: the call raises
`InvalidInput` (a `ValueError` carrying the blocked pattern) exactly when the
stripped text truncated to `maxLen` contains a denylisted pattern
(case-insensitively).  Consequently an input free of denylisted patterns
never raises — but an input whose only pattern occurrence lies beyond the
truncation point does not raise either. -/
theorem c3_sanitize_blocked (text : String) (maxLength : Nat)
    (allowNewlines : Bool) :
    ((isBlocked ((pyStrip text.data).take maxLength) = true →
        ∃ p, sanitize_text text maxLength allowNewlines =
          .error (.blockedPattern p)) ∧
      (isBlocked ((pyStrip text.data).take maxLength) = false →
        ∃ r, sanitize_text text maxLength allowNewlines = .ok r)) ∧
    (isBlocked text.data = false →
      ∃ r, sanitize_text text maxLength allowNewlines = .ok r) := by
  have hok : isBlocked ((pyStrip text.data).take maxLength) = false →
      ∃ r, sanitize_text text maxLength allowNewlines = .ok r := by
    intro hb
    cases hf : BLOCKED_PATTERNS.find? (fun p =>
        hitsPattern ((pyStrip text.data).take maxLength) p) with
    | some p =>
      have hmem := List.mem_of_find?_eq_some hf
      have hhit := List.find?_some hf
      have : isBlocked ((pyStrip text.data).take maxLength) = true :=
        List.any_eq_true.mpr ⟨p, hmem, hhit⟩
      rw [this] at hb
      cases hb
    | none =>
      exact ⟨_, by rw [sanitize_text_eq, hf]⟩
  refine ⟨⟨?_, hok⟩, ?_⟩
  · intro hb
    rcases List.any_eq_true.mp hb with ⟨p, hp, hhit⟩
    cases hf : BLOCKED_PATTERNS.find? (fun q =>
        hitsPattern ((pyStrip text.data).take maxLength) q) with
    | some q =>
      exact ⟨q, by rw [sanitize_text_eq, hf]⟩
    | none =>
      have := List.find?_eq_none.mp hf p hp
      rw [hhit] at this
      exact absurd rfl this
  · intro hfree
    refine hok ?_
    by_contra hb
    rw [Bool.not_eq_false] at hb
    rcases stripTake_infix text.data maxLength with ⟨pre, post, hs⟩
    have := isBlocked_extend pre post _ hb
    rw [← hs] at this
    rw [this] at hfree
    cases hfree

/-- Witness for C3 at concrete inputs: `"a$b"` is rejected for its `$`;
`"ok"` sanitizes successfully. -/
theorem c3_sanitize_blocked_witness :
    (∃ p, sanitize_text "a$b" 5 false = .error (.blockedPattern p)) ∧
      ∃ r, sanitize_text "ok" 5 false = .ok r :=
  ⟨(c3_sanitize_blocked "a$b" 5 false).1.1 (by decide),
   (c3_sanitize_blocked "ok" 5 false).2 (by decide)⟩

/-- Counterexample to C3 as stated: `"a.."` contains the denylisted
path-traversal pattern `..`, yet `sanitize_text "a.." 1 False` does not raise
(truncation to `maxLen = 1` removes the pattern before the check). -/
theorem c3_counterexample :
    sanitize_text "a.." 1 false = .ok "a" ∧
      isBlocked ("a.." : String).data = true := by
  decide

/-! ## Claim C4 -/

theorem headerAbsent_forall {hdr : String} {lines : List String}
    (h : headerAbsent hdr lines = true) :
    ∀ l ∈ lines, strContains l hdr = false := by
  intro l hl
  have := List.all_eq_true.mp h l hl
  simpa using this

theorem findIdxFrom_none (p : String → Bool) :
    ∀ (ls : List String) (i : Nat), (∀ l ∈ ls, p l = false) →
      findIdxFrom p ls i = none := by
  intro ls
  induction ls with
  | nil => intro i _; rfl
  | cons l ls ih =>
    intro i h
    have hl : p l = false := h l (List.mem_cons_self l ls)
    simp only [findIdxFrom, hl, Bool.false_eq_true, if_false]
    exact ih (i + 1) fun l' h' => h l' (List.mem_cons_of_mem _ h')

theorem liScanAux_none (dh : String) :
    ∀ (ls : List String) (i : Nat),
      (∀ l ∈ ls, strContains l HDR_INTERRUPTIONS = false) →
      liScanAux dh ls i none none none = (none, none, none) := by
  intro ls
  induction ls with
  | nil => intro i _; rfl
  | cons l ls ih =>
    intro i h
    have hl : strContains l HDR_INTERRUPTIONS = false :=
      h l (List.mem_cons_self l ls)
    simp only [liScanAux, hl, Bool.false_eq_true, if_false, truthy,
      Bool.false_and]
    exact ih (i + 1) fun l' h' => h l' (List.mem_cons_of_mem _ h')

theorem mcScanAux_none (dh : String) :
    ∀ (ls : List String) (i : Nat),
      (∀ l ∈ ls, strContains l HDR_COMPLETED = false) →
      mcScanAux dh ls i none = (none, none) := by
  intro ls
  induction ls with
  | nil => intro i _; rfl
  | cons l ls ih =>
    intro i h
    have hl : strContains l HDR_COMPLETED = false :=
      h l (List.mem_cons_self l ls)
    simp only [mcScanAux, hl, Bool.false_eq_true, if_false, truthy,
      Bool.false_and]
    exact ih (i + 1) fun l' h' => h l' (List.mem_cons_of_mem _ h')

/-- Claim C4 (confirmed): every content-mutating operation applied to a
document whose anchor section header is absent fails with the
`MissingSection` error, and the document on disk is unchanged (the write only
ever happens after the anchor is located). -/
theorem c4_missing_section (lines : List String)
    (note task type_key priority time_str date_str : String)
    (hnote : ∃ n, sanitize_text note MAX_NOTE_LENGTH false = .ok n)
    (htask : ∃ tk, sanitize_text task MAX_TASK_LENGTH false = .ok tk) :
    (headerAbsent HDR_INTERRUPTIONS lines = true →
      log_interruption lines note type_key priority time_str date_str =
        .error (.missingSection
          "Invalid scratchpad format: missing Interruptions section") ∧
      diskAfter (log_interruption lines note type_key priority time_str date_str)
        lines = lines) ∧
    (headerAbsent HDR_FOCUS lines = true →
      update_focus lines task time_str =
        .error (.missingSection
          "Invalid scratchpad format: missing Current Focus section") ∧
      diskAfter (update_focus lines task time_str) lines = lines) ∧
    (headerAbsent HDR_REVIEW lines = true →
      add_to_review_later lines note =
        .error (.missingSection
          "Invalid scratchpad format: missing To Review Later section") ∧
      diskAfter (add_to_review_later lines note) lines = lines) ∧
    (headerAbsent HDR_COMPLETED lines = true →
      mark_completed lines note time_str date_str =
        .error (.missingSection
          "Invalid scratchpad format: missing Completed Today section") ∧
      diskAfter (mark_completed lines note time_str date_str) lines = lines) ∧
    (headerAbsent HDR_ARCHIVED lines = true →
      archive_item lines note date_str =
        .error (.missingSection
          "Invalid scratchpad format: missing Archived section") ∧
      diskAfter (archive_item lines note date_str) lines = lines) := by
  obtain ⟨n, hn⟩ := hnote
  obtain ⟨tk, htk⟩ := htask
  refine ⟨?_, ?_, ?_, ?_, ?_⟩
  · intro habs
    have hscan : liScan ("### 📅 " ++ date_str) lines = (none, none, none) :=
      liScanAux_none _ lines 0 (headerAbsent_forall habs)
    have heq : log_interruption lines note type_key priority time_str date_str =
        .error (.missingSection
          "Invalid scratchpad format: missing Interruptions section") := by
      simp only [log_interruption, hn, log_interruption_core, hscan]
    exact ⟨heq, by rw [heq]; rfl⟩
  · intro habs
    have hfind : findFirstIdx (fun l => strContains l HDR_FOCUS) lines = none :=
      findIdxFrom_none _ lines 0 (headerAbsent_forall habs)
    have heq : update_focus lines task time_str =
        .error (.missingSection
          "Invalid scratchpad format: missing Current Focus section") := by
      simp only [update_focus, htk, update_focus_core, hfind]
    exact ⟨heq, by rw [heq]; rfl⟩
  · intro habs
    have hfind : findFirstIdx (fun l => strContains l HDR_REVIEW) lines = none :=
      findIdxFrom_none _ lines 0 (headerAbsent_forall habs)
    have heq : add_to_review_later lines note =
        .error (.missingSection
          "Invalid scratchpad format: missing To Review Later section") := by
      simp only [add_to_review_later, hn, add_to_review_later_core, hfind]
    exact ⟨heq, by rw [heq]; rfl⟩
  · intro habs
    have hscan : mcScan ("### 📅 " ++ date_str) lines = (none, none) :=
      mcScanAux_none _ lines 0 (headerAbsent_forall habs)
    have heq : mark_completed lines note time_str date_str =
        .error (.missingSection
          "Invalid scratchpad format: missing Completed Today section") := by
      simp only [mark_completed, hn, mark_completed_core, hscan]
    exact ⟨heq, by rw [heq]; rfl⟩
  · intro habs
    have hfind : findFirstIdx (fun l => strContains l HDR_ARCHIVED) lines = none :=
      findIdxFrom_none _ lines 0 (headerAbsent_forall habs)
    have heq : archive_item lines note date_str =
        .error (.missingSection
          "Invalid scratchpad format: missing Archived section") := by
      simp only [archive_item, hn, archive_item_core, hfind]
    exact ⟨heq, by rw [heq]; rfl⟩

/-- Witness for C4 on a concrete two-line document with no headers at all. -/
theorem c4_missing_section_witness :
    (log_interruption ["hello", "world"] "x" "idea" "medium" "10:00" "12/10/2025" =
      .error (.missingSection
        "Invalid scratchpad format: missing Interruptions section")) ∧
    (update_focus ["hello", "world"] "y" "10:00" =
      .error (.missingSection
        "Invalid scratchpad format: missing Current Focus section")) ∧
    (add_to_review_later ["hello", "world"] "x" =
      .error (.missingSection
        "Invalid scratchpad format: missing To Review Later section")) ∧
    (mark_completed ["hello", "world"] "x" "10:00" "12/10/2025" =
      .error (.missingSection
        "Invalid scratchpad format: missing Completed Today section")) ∧
    (archive_item ["hello", "world"] "x" "12/10/2025" =
      .error (.missingSection
        "Invalid scratchpad format: missing Archived section")) := by
  have h := c4_missing_section ["hello", "world"] "x" "y" "idea" "medium"
    "10:00" "12/10/2025" ⟨"x", by decide⟩ ⟨"y", by decide⟩
  exact ⟨(h.1 (by decide)).1, (h.2.1 (by decide)).1, (h.2.2.1 (by decide)).1,
    (h.2.2.2.1 (by decide)).1, (h.2.2.2.2 (by decide)).1⟩

/-! ## Claim C6 -/

/-- Claim C6 (confirmed): on a freshly created template document,
`log_interruption("Fix bug", "bug", "high")` replaces the `_No entries yet_`
sentinel row (line 21 of the template) in place with the row
`| `10:00` | 🐛 Bug | Fix bug | 🔴 |` carrying the current time, the bug
emoji and capitalised label, the note, and the high-priority emoji; a second
call the same day inserts its row immediately after the first (before index
22) instead of overwriting it. -/
theorem c6_log_interruption_fresh :
    log_interruption (templateLines "12/10/2025") "Fix bug" "bug" "high"
        "10:00" "12/10/2025" =
      .ok ((templateLines "12/10/2025").set 21
        "| `10:00` | 🐛 Bug | Fix bug | 🔴 |") ∧
    log_interruption ((templateLines "12/10/2025").set 21
        "| `10:00` | 🐛 Bug | Fix bug | 🔴 |") "Fix bug" "bug" "high"
        "11:30" "12/10/2025" =
      .ok (pyInsert ((templateLines "12/10/2025").set 21
        "| `10:00` | 🐛 Bug | Fix bug | 🔴 |") 22
        "| `11:30` | 🐛 Bug | Fix bug | 🔴 |") := by
  constructor
  · decide
  · decide

/-! ## Claim C1 -/

/-- Claim C1 (code bug, evaluated at the failing input): after
`mark_completed` on a fresh template the document contains exactly one
checked `- [x]` item, yet the freshly recomputed statistics line still reads
`Items Completed: 0` — the counting loop resets its section flags at every
line starting with `##`, which includes the `### 📅` date subsection headers
under which all entries live, so the counters can never see any entry.
Moreover `log_interruption` adds a table row without invoking the statistics
recomputation at all: the entire statistics section stays byte-identical to
the template's. -/
theorem c1_statistics_never_count :
    (mark_completed_full (templateLines "12/10/2025") "Fix tests" "10:00"
        "12/10/2025").map
        (fun c => (c.countP (fun l => strStarts l "- [x]"), c.getD 61 "")) =
      .ok (1, "- **Items Completed:** 0") ∧
    (log_interruption (templateLines "12/10/2025") "Fix bug" "bug" "high"
        "10:00" "12/10/2025").map
        (fun c => (c.countP (fun l => strStarts l "| `"),
          sectionOf HDR_STATS c)) =
      .ok (1, sectionOf HDR_STATS (templateLines "12/10/2025")) := by
  constructor
  · decide
  · decide

/-! ## Claim C5 -/

/-- When the statistics section of a document is well-formed (header present
and at least four addressable lines below the `Last Updated` offset),
`_update_statistics` always succeeds — in particular the write-stage size
guard silently skips the write rather than failing. -/
theorem update_statistics_ok_of (mid : List String) (date_str : String) :
    (findFirstIdx (fun l => strContains l HDR_STATS) mid = none →
      update_statistics mid date_str = .ok mid) ∧
    ∀ s, findFirstIdx (fun l => strContains l HDR_STATS) mid = some s →
      s + 5 < mid.length →
      ∃ out, update_statistics mid date_str = .ok out := by
  constructor
  · intro hn
    simp only [update_statistics, hn]
  · intro s hs hlt
    simp only [update_statistics, hs, hlt, if_pos]
    split
    · exact ⟨_, rfl⟩
    · exact ⟨_, rfl⟩

/-- Claim C5 (amended): once the primary content write of
`add_to_review_later` / `mark_completed` / `archive_item` has succeeded, the
statistics recomputation only fails on a malformed statistics section (its
read re-passes the rate limiter and its four fixed-offset line assignments
can raise `IndexError`); when the statistics section is absent or
well-formed, no statistics failure surfaces — the oversize-write case is
silently skipped, never an error. -/
theorem c5_stats_failures_swallowed (lines : List String)
    (note time_str date_str : String) :
    (∀ mid, add_to_review_later lines note = .ok mid →
      (findFirstIdx (fun l => strContains l HDR_STATS) mid = none →
        add_to_review_later_full lines note date_str = .ok mid) ∧
      ∀ s, findFirstIdx (fun l => strContains l HDR_STATS) mid = some s →
        s + 5 < mid.length →
        ∃ out, add_to_review_later_full lines note date_str = .ok out) ∧
    (∀ mid, mark_completed lines note time_str date_str = .ok mid →
      (findFirstIdx (fun l => strContains l HDR_STATS) mid = none →
        mark_completed_full lines note time_str date_str = .ok mid) ∧
      ∀ s, findFirstIdx (fun l => strContains l HDR_STATS) mid = some s →
        s + 5 < mid.length →
        ∃ out, mark_completed_full lines note time_str date_str = .ok out) ∧
    (∀ mid, archive_item lines note date_str = .ok mid →
      (findFirstIdx (fun l => strContains l HDR_STATS) mid = none →
        archive_item_full lines note date_str = .ok mid) ∧
      ∀ s, findFirstIdx (fun l => strContains l HDR_STATS) mid = some s →
        s + 5 < mid.length →
        ∃ out, archive_item_full lines note date_str = .ok out) := by
  refine ⟨?_, ?_, ?_⟩
  · intro mid h
    have hfull : add_to_review_later_full lines note date_str =
        update_statistics mid date_str := by
      simp only [add_to_review_later_full, h]
    rw [hfull]
    exact update_statistics_ok_of mid date_str
  · intro mid h
    have hfull : mark_completed_full lines note time_str date_str =
        update_statistics mid date_str := by
      simp only [mark_completed_full, h]
    rw [hfull]
    exact update_statistics_ok_of mid date_str
  · intro mid h
    have hfull : archive_item_full lines note date_str =
        update_statistics mid date_str := by
      simp only [archive_item_full, h]
    rw [hfull]
    exact update_statistics_ok_of mid date_str

/-- Witness for C5: on the template, `mark_completed` succeeds and the
well-formed statistics section lets the full operation succeed. -/
theorem c5_stats_failures_swallowed_witness :
    (mark_completed_full (templateLines "12/10/2025") "x" "10:00"
      "12/10/2025").isOk = true := by
  obtain ⟨out, hout⟩ :=
    ((c5_stats_failures_swallowed (templateLines "12/10/2025") "x" "10:00"
        "12/10/2025").2.1
      ((templateLines "12/10/2025").set 41 "- [x] x _(10:00)_")
      (by decide)).2 58 (by decide) (by decide)
  rw [hout]
  rfl

/-- Counterexample to C5 as stated: on this document the primary
`mark_completed` mutation succeeds (and its write happens), but the
statistics recomputation then raises `IndexError` while addressing the four
fixed-offset statistics lines, and that failure surfaces as a failure of the
whole operation. -/
theorem c5_counterexample :
    mark_completed ["## ✅ Completed Today", "a", "b",
        "## 📊 Usage Statistics", "c"] "n" "10:00" "12/10/2025" =
      .ok ["## ✅ Completed Today", "a", "b", "", "### 📅 12/10/2025", "",
        "- [x] n _(10:00)_", "## 📊 Usage Statistics", "c"] ∧
    mark_completed_full ["## ✅ Completed Today", "a", "b",
        "## 📊 Usage Statistics", "c"] "n" "10:00" "12/10/2025" =
      .error .indexError := by
  decide

/-! ## Claim C8 -/

/-- Claim C8 (amended): starting from a freshly created template document,
`mark_completed("Ship release")` followed by `archive_item("Old idea")` each
leave every section other than the one they target (and the statistics block)
byte-identical to its pre-call state.  The restriction to template-shaped
documents is forced by the counterexample below: on a hand-edited document
the fixed-offset insertion can land inside a neighbouring section. -/
theorem c8_frame_on_template :
    (mark_completed_full c8doc0 "Ship release" "10:00" "12/10/2025" =
        .ok c8doc1 ∧
      sectionOf HDR_FOCUS c8doc1 = sectionOf HDR_FOCUS c8doc0 ∧
      sectionOf HDR_INTERRUPTIONS c8doc1 = sectionOf HDR_INTERRUPTIONS c8doc0 ∧
      sectionOf HDR_REVIEW c8doc1 = sectionOf HDR_REVIEW c8doc0 ∧
      sectionOf HDR_ARCHIVED c8doc1 = sectionOf HDR_ARCHIVED c8doc0 ∧
      sectionOf "## 🔧 Quick Reference" c8doc1 =
        sectionOf "## 🔧 Quick Reference" c8doc0) ∧
    (archive_item_full c8doc1 "Old idea" "12/10/2025" = .ok c8doc2 ∧
      sectionOf HDR_FOCUS c8doc2 = sectionOf HDR_FOCUS c8doc1 ∧
      sectionOf HDR_INTERRUPTIONS c8doc2 = sectionOf HDR_INTERRUPTIONS c8doc1 ∧
      sectionOf HDR_REVIEW c8doc2 = sectionOf HDR_REVIEW c8doc1 ∧
      sectionOf HDR_COMPLETED c8doc2 = sectionOf HDR_COMPLETED c8doc1 ∧
      sectionOf "## 🔧 Quick Reference" c8doc2 =
        sectionOf "## 🔧 Quick Reference" c8doc1) := by
  constructor
  · constructor
    · decide
    · decide
  · constructor
    · decide
    · decide

/-- Counterexample to C8 as stated (for arbitrary documents): on this
hand-edited document `mark_completed` succeeds, but its fixed-offset splice
(`Completed` header index + 3) lands inside the following `## Other`
section, which is therefore not byte-identical afterwards although it is
neither the targeted section nor the statistics block. -/
theorem c8_counterexample :
    mark_completed_full ["## ✅ Completed Today", "## Other", "x"] "a"
        "10:00" "12/10/2025" =
      .ok ["## ✅ Completed Today", "## Other", "x", "", "### 📅 12/10/2025",
        "", "- [x] a _(10:00)_"] ∧
    sectionOf "## Other" ["## ✅ Completed Today", "## Other", "x", "",
        "### 📅 12/10/2025", "", "- [x] a _(10:00)_"] ≠
      sectionOf "## Other" ["## ✅ Completed Today", "## Other", "x"] := by
  decide

/-! ## Claim C7 -/

/-- Unfolding equation for `_update_statistics`. -/
theorem update_statistics_eq (lines : List String) (d : String) :
    update_statistics lines d =
      match findFirstIdx (fun l => strContains l HDR_STATS) lines with
      | none => .ok lines
      | some s =>
        if s + 5 < lines.length then
          if docByteSize (setStats lines s (countStats lines) d) ≤
              MAX_FILE_SIZE then
            .ok (setStats lines s (countStats lines) d)
          else .ok lines
        else .error .indexError :=
  rfl

theorem statsDisk_ok {lines M : List String} {d : String}
    (h : update_statistics lines d = .ok M) : statsDisk lines d = M := by
  unfold statsDisk
  rw [h]

theorem statsDisk_err {lines : List String} {d : String} {e : Err}
    (h : update_statistics lines d = .error e) : statsDisk lines d = lines := by
  unfold statsDisk
  rw [h]

theorem getD_set_ne (l : List String) (i j : Nat) (x : String) (h : i ≠ j) :
    (l.set j x).getD i "" = l.getD i "" := by
  induction l generalizing i j with
  | nil => rfl
  | cons a t ih =>
    cases j with
    | zero =>
      cases i with
      | zero => exact absurd rfl h
      | succ i2 => rfl
    | succ j2 =>
      cases i with
      | zero => rfl
      | succ i2 =>
        show (t.set j2 x).getD i2 "" = t.getD i2 ""
        exact ih i2 j2 (by omega)

theorem getD_set_self (l : List String) (i : Nat) (x : String)
    (hi : i < l.length) : (l.set i x).getD i "" = x := by
  induction l generalizing i with
  | nil => simp at hi
  | cons a t ih =>
    cases i with
    | zero => rfl
    | succ j => exact ih j (by simpa using hi)

theorem set_eq_self_of_getD (l : List String) (i : Nat) (x : String)
    (hi : i < l.length) (hg : l.getD i "" = x) : l.set i x = l := by
  induction l generalizing i with
  | nil => simp at hi
  | cons a t ih =>
    cases i with
    | zero =>
      have ha : a = x := hg
      show x :: t = a :: t
      rw [ha]
    | succ j =>
      show a :: t.set j x = a :: t
      rw [ih j (by simpa using hi) hg]

theorem getD_mem : ∀ (l : List String) (k : Nat), k < l.length →
    l.getD k "" ∈ l := by
  intro l
  induction l with
  | nil => intro k hk; simp at hk
  | cons a t ih =>
    intro k hk
    cases k with
    | zero => exact List.mem_cons_self a t
    | succ j => exact List.mem_cons_of_mem a (ih j (by simpa using hk))

theorem getD_drop : ∀ (l : List String) (m k : Nat),
    (l.drop m).getD k "" = l.getD (m + k) "" := by
  intro l
  induction l with
  | nil => intro m k; cases m <;> rfl
  | cons a t ih =>
    intro m k
    cases m with
    | zero =>
      rw [Nat.zero_add]
      rfl
    | succ m2 =>
      have harith : m2 + 1 + k = (m2 + k) + 1 := by omega
      rw [harith]
      show (t.drop m2).getD k "" = t.getD (m2 + k) ""
      exact ih m2 k

theorem getD_take : ∀ (l : List String) (n k : Nat), k < n →
    (l.take n).getD k "" = l.getD k "" := by
  intro l
  induction l with
  | nil => intro n k _; cases n <;> rfl
  | cons a t ih =>
    intro n k hk
    cases n with
    | zero => omega
    | succ n2 =>
      cases k with
      | zero => rfl
      | succ k2 =>
        show (t.take n2).getD k2 "" = t.getD k2 ""
        exact ih n2 k2 (by omega)

/-- Element extraction from the `statsInert` bound. -/
theorem all_take_drop_getD {l : List String} {m : Nat}
    (hall : ((l.drop m).take 4).all inertLine = true) (k : Nat) (hk : k < 4)
    (hlt : m + k < l.length) : inertLine (l.getD (m + k) "") = true := by
  have hmemlen : k < ((l.drop m).take 4).length := by
    simp only [List.length_take, List.length_drop]
    omega
  have hm := List.all_eq_true.mp hall _ (getD_mem ((l.drop m).take 4) k hmemlen)
  rw [getD_take _ 4 k hk, getD_drop l m k] at hm
  exact hm

/-- A count-inert line leaves the statistics counting state untouched. -/
theorem statStep_inert {l : String} (h : inertLine l = true) (st : StatState) :
    statStep st l = st := by
  simp only [inertLine, Bool.and_eq_true, Bool.not_eq_true'] at h
  obtain ⟨⟨⟨⟨⟨⟨h1, h2⟩, h3⟩, h4⟩, h5⟩, h6⟩, h7⟩ := h
  simp [statStep, h1, h2, h3, h4, h5, h6, h7]

theorem foldl_statStep_set : ∀ (l : List String) (i : Nat) (x : String)
    (st : StatState), inertLine (l.getD i "") = true → inertLine x = true →
    (l.set i x).foldl statStep st = l.foldl statStep st := by
  intro l
  induction l with
  | nil => intro i x st _ _; rfl
  | cons a t ih =>
    intro i x st hold hx
    cases i with
    | zero =>
      show (x :: t).foldl statStep st = (a :: t).foldl statStep st
      simp only [List.foldl_cons]
      have hold2 : inertLine a = true := hold
      rw [statStep_inert hx, statStep_inert hold2]
    | succ j =>
      show (a :: t.set j x).foldl statStep st = (a :: t).foldl statStep st
      simp only [List.foldl_cons]
      exact ih j x (statStep st a) hold hx

theorem countStats_set (l : List String) (i : Nat) (x : String)
    (hold : inertLine (l.getD i "") = true) (hx : inertLine x = true) :
    countStats (l.set i x) = countStats l :=
  foldl_statStep_set l i x statInit hold hx

theorem findIdxFrom_ge (p : String → Bool) : ∀ (l : List String) (i s : Nat),
    findIdxFrom p l i = some s → i ≤ s := by
  intro l
  induction l with
  | nil => intro i s h; cases h
  | cons a t ih =>
    intro i s h
    by_cases hp : p a
    · simp only [findIdxFrom, hp, if_true, Option.some.injEq] at h
      omega
    · simp only [findIdxFrom, hp, Bool.false_eq_true, if_false] at h
      have := ih (i + 1) s h
      omega

theorem findIdxFrom_set (p : String → Bool) (x : String) :
    ∀ (l : List String) (i j s : Nat), findIdxFrom p l i = some s →
      s < i + j → findIdxFrom p (l.set j x) i = some s := by
  intro l
  induction l with
  | nil => intro i j s h _; cases h
  | cons a t ih =>
    intro i j s h hs
    cases j with
    | zero =>
      have := findIdxFrom_ge p (a :: t) i s h
      omega
    | succ j2 =>
      show findIdxFrom p (a :: t.set j2 x) i = some s
      by_cases hp : p a
      · simp only [findIdxFrom, hp, if_true] at h ⊢
        exact h
      · simp only [findIdxFrom, hp, Bool.false_eq_true, if_false] at h ⊢
        exact ih (i + 1) j2 s h (by omega)

theorem findFirstIdx_set_gt (p : String → Bool) (l : List String) (j : Nat)
    (x : String) (s : Nat) (h : findFirstIdx p l = some s) (hj : s < j) :
    findFirstIdx p (l.set j x) = some s :=
  findIdxFrom_set p x l 0 j s h (by omega)

theorem findFirstIdx_setStats (p : String → Bool) (lines : List String)
    (s : Nat) (st : StatState) (d : String)
    (h : findFirstIdx p lines = some s) :
    findFirstIdx p (setStats lines s st d) = some s := by
  unfold setStats
  exact findFirstIdx_set_gt p _ (s + 5) _ s
    (findFirstIdx_set_gt p _ (s + 4) _ s
      (findFirstIdx_set_gt p _ (s + 3) _ s
        (findFirstIdx_set_gt p _ (s + 2) _ s h (by omega)) (by omega))
      (by omega)) (by omega)

theorem length_setStats (lines : List String) (s : Nat) (st : StatState)
    (d : String) : (setStats lines s st d).length = lines.length := by
  simp [setStats, List.length_set]

theorem leadsWith_append_of_le : ∀ (pat a b : List Char),
    pat.length ≤ a.length → leadsWith pat (a ++ b) = leadsWith pat a := by
  intro pat
  induction pat with
  | nil => intro a b _; rfl
  | cons p ps ih =>
    intro a b hl
    cases a with
    | nil => simp at hl
    | cons x xs =>
      show (p == x && leadsWith ps (xs ++ b)) = (p == x && leadsWith ps xs)
      rw [ih xs b (by simpa using hl)]

theorem hasSub_not_mem {pat hay : List Char} {c : Char} (hc : c ∈ pat)
    (hnc : c ∉ hay) : hasSub pat hay = false := by
  by_contra h
  rw [Bool.not_eq_false] at h
  rcases (hasSub_iff pat hay).mp h with ⟨pre, post, rfl⟩
  exact hnc (by simp [hc])

theorem ofNat_digit_ne_hash (m : Nat) (hm : m < 10) :
    Char.ofNat (48 + m) ≠ '#' := by
  interval_cases m <;> decide

theorem natDigitsAux_ne_hash : ∀ (fuel n : Nat), ∀ c ∈ natDigitsAux fuel n,
    c ≠ '#' := by
  intro fuel
  induction fuel with
  | zero => intro n c hc; simp [natDigitsAux] at hc
  | succ f ih =>
    intro n c hc
    by_cases hn : n < 10
    · simp only [natDigitsAux, hn, if_true, List.mem_singleton] at hc
      exact hc ▸ ofNat_digit_ne_hash n hn
    · simp only [natDigitsAux, hn, if_false, List.mem_append,
        List.mem_singleton] at hc
      rcases hc with hc | hc
      · exact ih (n / 10) c hc
      · exact hc ▸ ofNat_digit_ne_hash (n % 10) (Nat.mod_lt n (by omega))

theorem natToStr_ne_hash (n : Nat) : ∀ c ∈ (natToStr n).data, c ≠ '#' :=
  fun c hc => natDigitsAux_ne_hash (n + 1) n c hc

/-- A statistics line written by the recomputation is count-inert: its fixed
prefix decides all the `startswith` probes and the decimal digits contribute
no `#`, so no section-header substring can occur. -/
theorem inertLine_stat (pre : String) (n : Nat) (hpre : inertLine pre = true)
    (hlen : 5 ≤ pre.data.length) (hhash : ∀ c ∈ pre.data, c ≠ '#') :
    inertLine (pre ++ natToStr n) = true := by
  have hdata : (pre ++ natToStr n).data = pre.data ++ (natToStr n).data :=
    String.data_append pre (natToStr n)
  have hnhash : ∀ c ∈ (pre ++ natToStr n).data, c ≠ '#' := by
    intro c hc
    rw [hdata] at hc
    rcases List.mem_append.mp hc with h | h
    · exact hhash c h
    · exact natToStr_ne_hash n c h
  have hhay : '#' ∉ (pre ++ natToStr n).data := fun hm => hnhash '#' hm rfl
  simp only [inertLine, Bool.and_eq_true, Bool.not_eq_true'] at hpre ⊢
  obtain ⟨⟨⟨⟨⟨⟨-, -⟩, -⟩, p4⟩, p5⟩, p6⟩, p7⟩ := hpre
  refine ⟨⟨⟨⟨⟨⟨?_, ?_⟩, ?_⟩, ?_⟩, ?_⟩, ?_⟩, ?_⟩
  · exact hasSub_not_mem (by decide) hhay
  · exact hasSub_not_mem (by decide) hhay
  · exact hasSub_not_mem (by decide) hhay
  · show leadsWith ("##" : String).data (pre ++ natToStr n).data = false
    rw [hdata, leadsWith_append_of_le _ _ _ (le_trans (by decide) hlen)]
    exact p4
  · show leadsWith ("| `" : String).data (pre ++ natToStr n).data = false
    rw [hdata, leadsWith_append_of_le _ _ _ (le_trans (by decide) hlen)]
    exact p5
  · show leadsWith ("- [x]" : String).data (pre ++ natToStr n).data = false
    rw [hdata, leadsWith_append_of_le _ _ _ (le_trans (by decide) hlen)]
    exact p6
  · show leadsWith ("- ~~" : String).data (pre ++ natToStr n).data = false
    rw [hdata, leadsWith_append_of_le _ _ _ (le_trans (by decide) hlen)]
    exact p7

/-- Rewriting the four statistics lines with freshly produced statistics
lines does not change the counting result. -/
theorem countStats_setStats (lines : List String) (s : Nat) (st : StatState)
    (d : String)
    (hold : ∀ k, k < 4 → inertLine (lines.getD (s + 2 + k) "") = true)
    (hD : inertLine ("- **Last Updated:** " ++ d) = true) :
    countStats (setStats lines s st d) = countStats lines := by
  have hA : inertLine ("- **Total Ideas Logged:** " ++ natToStr st.logged) =
      true :=
    inertLine_stat _ _ (by decide) (by decide) (by decide)
  have hB : inertLine ("- **Items Completed:** " ++ natToStr st.completed) =
      true :=
    inertLine_stat _ _ (by decide) (by decide) (by decide)
  have hC : inertLine ("- **Items Archived:** " ++ natToStr st.archived) =
      true :=
    inertLine_stat _ _ (by decide) (by decide) (by decide)
  have o2 : inertLine (lines.getD (s + 2) "") = true := hold 0 (by omega)
  have o3 : inertLine ((lines.set (s + 2)
      ("- **Total Ideas Logged:** " ++ natToStr st.logged)).getD (s + 3) "") =
      true := by
    rw [getD_set_ne _ (s + 3) (s + 2) _ (by omega)]
    exact hold 1 (by omega)
  have o4 : inertLine (((lines.set (s + 2)
      ("- **Total Ideas Logged:** " ++ natToStr st.logged)).set (s + 3)
      ("- **Items Completed:** " ++ natToStr st.completed)).getD (s + 4) "") =
      true := by
    rw [getD_set_ne _ (s + 4) (s + 3) _ (by omega),
      getD_set_ne _ (s + 4) (s + 2) _ (by omega)]
    exact hold 2 (by omega)
  have o5 : inertLine ((((lines.set (s + 2)
      ("- **Total Ideas Logged:** " ++ natToStr st.logged)).set (s + 3)
      ("- **Items Completed:** " ++ natToStr st.completed)).set (s + 4)
      ("- **Items Archived:** " ++ natToStr st.archived)).getD (s + 5) "") =
      true := by
    rw [getD_set_ne _ (s + 5) (s + 4) _ (by omega),
      getD_set_ne _ (s + 5) (s + 3) _ (by omega),
      getD_set_ne _ (s + 5) (s + 2) _ (by omega)]
    exact hold 3 (by omega)
  unfold setStats
  rw [countStats_set _ (s + 5) _ o5 hD, countStats_set _ (s + 4) _ o4 hC,
    countStats_set _ (s + 3) _ o3 hB, countStats_set _ (s + 2) _ o2 hA]

/-- Applying `setStats` to a document that already carries exactly these
statistics lines is the identity. -/
theorem setStats_setStats_self (lines : List String) (s : Nat)
    (st : StatState) (d : String) (h5 : s + 5 < lines.length) :
    setStats (setStats lines s st d) s st d = setStats lines s st d := by
  have hlenN : (setStats lines s st d).length = lines.length :=
    length_setStats lines s st d
  have g2 : (setStats lines s st d).getD (s + 2) "" =
      "- **Total Ideas Logged:** " ++ natToStr st.logged := by
    unfold setStats
    rw [getD_set_ne _ (s + 2) (s + 5) _ (by omega),
      getD_set_ne _ (s + 2) (s + 4) _ (by omega),
      getD_set_ne _ (s + 2) (s + 3) _ (by omega),
      getD_set_self _ (s + 2) _ (by omega)]
  have g3 : (setStats lines s st d).getD (s + 3) "" =
      "- **Items Completed:** " ++ natToStr st.completed := by
    unfold setStats
    rw [getD_set_ne _ (s + 3) (s + 5) _ (by omega),
      getD_set_ne _ (s + 3) (s + 4) _ (by omega),
      getD_set_self _ (s + 3) _ (by simp [List.length_set]; omega)]
  have g4 : (setStats lines s st d).getD (s + 4) "" =
      "- **Items Archived:** " ++ natToStr st.archived := by
    unfold setStats
    rw [getD_set_ne _ (s + 4) (s + 5) _ (by omega),
      getD_set_self _ (s + 4) _ (by simp [List.length_set]; omega)]
  have g5 : (setStats lines s st d).getD (s + 5) "" =
      "- **Last Updated:** " ++ d := by
    unfold setStats
    rw [getD_set_self _ (s + 5) _ (by simp [List.length_set]; omega)]
  have e2 : (setStats lines s st d).set (s + 2)
      ("- **Total Ideas Logged:** " ++ natToStr st.logged) =
      setStats lines s st d :=
    set_eq_self_of_getD _ _ _ (by omega) g2
  have e3 : (setStats lines s st d).set (s + 3)
      ("- **Items Completed:** " ++ natToStr st.completed) =
      setStats lines s st d :=
    set_eq_self_of_getD _ _ _ (by omega) g3
  have e4 : (setStats lines s st d).set (s + 4)
      ("- **Items Archived:** " ++ natToStr st.archived) =
      setStats lines s st d :=
    set_eq_self_of_getD _ _ _ (by omega) g4
  have e5 : (setStats lines s st d).set (s + 5)
      ("- **Last Updated:** " ++ d) = setStats lines s st d :=
    set_eq_self_of_getD _ _ _ (by omega) g5
  conv_lhs => rw [setStats, e2, e3, e4, e5]

/-- Claim C7 (amended): the statistics recomputation is idempotent on every
document whose four overwritten statistics lines are count-inert — in
particular on every template-derived document — for any date string whose
rendered `Last Updated` line is itself count-inert.  (Without the inertness
proviso the claim fails: see the counterexample, where a section header
planted inside the statistics block changes the counts of the second run.) -/
theorem c7_statistics_idempotent (lines : List String) (date_str : String)
    (hinert : statsInert lines = true)
    (hd : inertLine ("- **Last Updated:** " ++ date_str) = true) :
    statsDisk (statsDisk lines date_str) date_str =
      statsDisk lines date_str := by
  cases hf : findFirstIdx (fun l => strContains l HDR_STATS) lines with
  | none =>
    have h1 : statsDisk lines date_str = lines := by
      refine statsDisk_ok ?_
      simp only [update_statistics_eq, hf]
    rw [h1]
    exact h1
  | some s =>
    by_cases h5 : s + 5 < lines.length
    · by_cases hsz : docByteSize (setStats lines s (countStats lines)
          date_str) ≤ MAX_FILE_SIZE
      · have hall : ((lines.drop (s + 2)).take 4).all inertLine = true := by
          unfold statsInert at hinert
          rw [hf] at hinert
          exact hinert
        have hold : ∀ k, k < 4 →
            inertLine (lines.getD (s + 2 + k) "") = true := by
          intro k hk
          exact all_take_drop_getD hall k hk (by omega)
        have hcs := countStats_setStats lines s (countStats lines) date_str
          hold hd
        have hff := findFirstIdx_setStats (fun l => strContains l HDR_STATS)
          lines s (countStats lines) date_str hf
        have hLen := length_setStats lines s (countStats lines) date_str
        have hself := setStats_setStats_self lines s (countStats lines)
          date_str h5
        have u1 : update_statistics lines date_str =
            .ok (setStats lines s (countStats lines) date_str) := by
          simp only [update_statistics_eq, hf]
          rw [if_pos h5, if_pos hsz]
        have d1 : statsDisk lines date_str =
            setStats lines s (countStats lines) date_str := statsDisk_ok u1
        rw [d1]
        have u2 : update_statistics
            (setStats lines s (countStats lines) date_str) date_str =
            .ok (setStats lines s (countStats lines) date_str) := by
          simp only [update_statistics_eq, hff]
          rw [if_pos (by rw [hLen]; exact h5)]
          rw [hcs, hself, if_pos hsz]
        exact statsDisk_ok u2
      · have h1 : statsDisk lines date_str = lines := by
          refine statsDisk_ok ?_
          simp only [update_statistics_eq, hf]
          rw [if_pos h5, if_neg hsz]
        rw [h1]
        exact h1
    · have h1 : statsDisk lines date_str = lines := by
        have hu : update_statistics lines date_str = .error .indexError := by
          simp only [update_statistics_eq, hf]
          rw [if_neg h5]
        exact statsDisk_err hu
      rw [h1]
      exact h1

/-- Witness for C7 on the fresh template. -/
theorem c7_statistics_idempotent_witness :
    statsDisk (statsDisk (templateLines "12/10/2025") "12/10/2025")
        "12/10/2025" =
      statsDisk (templateLines "12/10/2025") "12/10/2025" :=
  c7_statistics_idempotent (templateLines "12/10/2025") "12/10/2025"
    (by decide) (by decide)

/-- Counterexample to C7 as stated (for arbitrary documents): on `c7doc`,
whose statistics block contains a planted `Interruptions` header among the
four overwritten lines, the first recomputation counts one table row and then
overwrites the planted header, so the second recomputation counts zero rows
and produces a different document. -/
theorem c7_counterexample :
    statsDisk (statsDisk c7doc "12/10/2025") "12/10/2025" ≠
      statsDisk c7doc "12/10/2025" := by
  decide

/-! ## Claim C9 -/

theorem evictOld_eq_self (window now : ℚ) (reqs : List ℚ)
    (h : ∀ t ∈ reqs, now - window ≤ t) : evictOld window now reqs = reqs := by
  cases reqs with
  | nil => rfl
  | cons a l =>
    have ha : ¬ (a < now - window) := not_lt.mpr (h a (List.mem_cons_self a l))
    simp [evictOld, List.dropWhile_cons, ha]

theorem dropWhile_length_le (p : ℚ → Bool) :
    ∀ l : List ℚ, (l.dropWhile p).length ≤ l.length := by
  intro l
  induction l with
  | nil => simp
  | cons a l ih =>
    rw [List.dropWhile_cons]
    split
    · exact le_trans ih (by simp)
    · simp

/-- Claim C9 (amended): if the limiter queue already holds `maxRequests`
timestamps that all survive eviction at time `now` (i.e. lie in the closed
window `[now - window, now]`), the next call is rejected with a wait time `w`
satisfying `0 ≤ w ≤ window`; `w` is positive when every queued timestamp is
strictly inside the window, but can be exactly `0` when the oldest timestamp
sits on the window boundary.  A subsequent call strictly later than
`now + w` is admitted — a call at exactly `now + w` is not (see the
counterexample). -/
theorem c9_rate_limiter (maxR : Nat) (window now : ℚ) (reqs : List ℚ)
    (hmax : 1 ≤ maxR) (hlen : reqs.length = maxR)
    (hin : ∀ t ∈ reqs, now - window ≤ t) (hpast : ∀ t ∈ reqs, t ≤ now) :
    ∃ w, is_allowed maxR window now reqs = ⟨false, some w, reqs⟩ ∧
      0 ≤ w ∧ w ≤ window ∧
      ((∀ t ∈ reqs, now - window < t) → 0 < w) ∧
      ∀ now2, now + w < now2 →
        (is_allowed maxR window now2 reqs).allowed = true := by
  have hev := evictOld_eq_self window now reqs hin
  cases reqs with
  | nil =>
    rw [List.length_nil] at hlen
    omega
  | cons a l =>
    have hmema : a ∈ a :: l := List.mem_cons_self a l
    refine ⟨window - (now - a), ?_, ?_, ?_, ?_, ?_⟩
    · simp only [is_allowed, hev, hlen, lt_irrefl, if_false, List.headI_cons]
    · have := hin a hmema
      linarith
    · have := hpast a hmema
      linarith
    · intro hstrict
      have := hstrict a hmema
      linarith
    · intro now2 h2
      have ha2 : a < now2 - window := by linarith
      have hlen1 : l.length + 1 = maxR := by
        simpa using hlen
      have hdrop : (List.dropWhile
          (fun t => decide (t < now2 - window)) l).length ≤ l.length :=
        dropWhile_length_le _ l
      have ha2' : (decide (a < now2 - window)) = true := decide_eq_true ha2
      simp only [is_allowed, evictOld, List.dropWhile_cons, ha2', if_true]
      rw [if_pos (by omega)]

/-! ## Claim C10 -/

theorem check_rate_ok {now : ℚ} {reqs r : List ℚ}
    (h : check_rate now reqs = .ok r) : r = gatePass now reqs := by
  unfold check_rate at h
  by_cases hc : (evictOld RATE_LIMIT_WINDOW now reqs).length <
      MAX_REQUESTS_PER_MINUTE
  · simp only [is_allowed, hc, if_true, Except.ok.injEq] at h
    unfold gatePass
    exact h.symm
  · simp only [is_allowed, hc, if_false, Bool.false_eq_true,
      reduceCtorEq] at h

theorem read_sp_ok {now : ℚ} {s s1 : MState} (h : read_sp now s = .ok s1) :
    s1 = ⟨gatePass now s.reqs, s.content⟩ := by
  unfold read_sp at h
  cases hcr : check_rate now s.reqs with
  | error e =>
    simp only [hcr] at h
    exact Except.noConfusion h
  | ok rq =>
    simp only [hcr] at h
    split at h
    · exact Except.noConfusion h
    · rw [check_rate_ok hcr] at h
      exact (Except.ok.inj h).symm

theorem write_sp_ok {now : ℚ} {reqs : List ℚ} {c : List String} {s2 : MState}
    (h : write_sp now reqs c = .ok s2) : s2 = ⟨gatePass now reqs, c⟩ := by
  unfold write_sp at h
  cases hcr : check_rate now reqs with
  | error e =>
    simp only [hcr] at h
    exact Except.noConfusion h
  | ok rq =>
    simp only [hcr] at h
    split at h
    · exact Except.noConfusion h
    · rw [check_rate_ok hcr] at h
      exact (Except.ok.inj h).symm

theorem update_statistics_call_ok {now : ℚ} {s : MState} {d : String}
    {s3 : MState} (h : update_statistics_call now s d = .ok s3) :
    s3.reqs = gatePass now s.reqs := by
  unfold update_statistics_call at h
  cases hr : read_sp now s with
  | error e =>
    simp only [hr] at h
    exact Except.noConfusion h
  | ok s1 =>
    simp only [hr] at h
    cases hu : update_statistics s1.content d with
    | error e =>
      simp only [hu] at h
      exact Except.noConfusion h
    | ok c2 =>
      simp only [hu, Except.ok.injEq] at h
      rw [← h, read_sp_ok hr]

/-- Claim C10 (confirmed): every successful content-mutating call passes the
rate limiter more than once — `log_interruption` and `update_focus` admit
exactly two timestamps (their internal read and write are both gated), while
`add_to_review_later`, `mark_completed` and `archive_item` admit exactly
three (the statistics recomputation re-reads the document through the gated
read path).  The resulting limiter queue is the input queue passed through
two, respectively three, evict-and-append admissions, so the effective
mutation budget per minute is one half, respectively one third, of the
advertised 60 requests. -/
theorem c10_admission_counts (s : MState)
    (note task type_key priority time_str date_str : String) (t1 t2 t3 : ℚ) :
    (∀ s2, log_interruption_call s note type_key priority time_str date_str
        t1 t2 = .ok s2 →
      s2.reqs = gatePass t2 (gatePass t1 s.reqs)) ∧
    (∀ s2, update_focus_call s task time_str t1 t2 = .ok s2 →
      s2.reqs = gatePass t2 (gatePass t1 s.reqs)) ∧
    (∀ s3, add_to_review_later_call s note date_str t1 t2 t3 = .ok s3 →
      s3.reqs = gatePass t3 (gatePass t2 (gatePass t1 s.reqs))) ∧
    (∀ s3, mark_completed_call s note time_str date_str t1 t2 t3 = .ok s3 →
      s3.reqs = gatePass t3 (gatePass t2 (gatePass t1 s.reqs))) ∧
    (∀ s3, archive_item_call s note date_str t1 t2 t3 = .ok s3 →
      s3.reqs = gatePass t3 (gatePass t2 (gatePass t1 s.reqs))) := by
  refine ⟨?_, ?_, ?_, ?_, ?_⟩
  · intro s2 h
    unfold log_interruption_call at h
    split at h
    · exact Except.noConfusion h
    · rename_i n hs
      cases hr : read_sp t1 s with
      | error e =>
        simp only [hr] at h
        exact Except.noConfusion h
      | ok s1 =>
        simp only [hr] at h
        split at h
        · exact Except.noConfusion h
        · rw [write_sp_ok h, read_sp_ok hr]
  · intro s2 h
    unfold update_focus_call at h
    split at h
    · exact Except.noConfusion h
    · rename_i tk hs
      cases hr : read_sp t1 s with
      | error e =>
        simp only [hr] at h
        exact Except.noConfusion h
      | ok s1 =>
        simp only [hr] at h
        split at h
        · exact Except.noConfusion h
        · rw [write_sp_ok h, read_sp_ok hr]
  · intro s3 h
    unfold add_to_review_later_call at h
    split at h
    · exact Except.noConfusion h
    · rename_i n hs
      cases hr : read_sp t1 s with
      | error e =>
        simp only [hr] at h
        exact Except.noConfusion h
      | ok s1 =>
        simp only [hr] at h
        split at h
        · exact Except.noConfusion h
        · rename_i c2 hc
          cases hw : write_sp t2 s1.reqs c2 with
          | error e =>
            simp only [hw] at h
            exact Except.noConfusion h
          | ok s2 =>
            simp only [hw] at h
            rw [update_statistics_call_ok h, write_sp_ok hw, read_sp_ok hr]
  · intro s3 h
    unfold mark_completed_call at h
    split at h
    · exact Except.noConfusion h
    · rename_i n hs
      cases hr : read_sp t1 s with
      | error e =>
        simp only [hr] at h
        exact Except.noConfusion h
      | ok s1 =>
        simp only [hr] at h
        split at h
        · exact Except.noConfusion h
        · rename_i c2 hc
          cases hw : write_sp t2 s1.reqs c2 with
          | error e =>
            simp only [hw] at h
            exact Except.noConfusion h
          | ok s2 =>
            simp only [hw] at h
            rw [update_statistics_call_ok h, write_sp_ok hw, read_sp_ok hr]
  · intro s3 h
    unfold archive_item_call at h
    split at h
    · exact Except.noConfusion h
    · rename_i n hs
      cases hr : read_sp t1 s with
      | error e =>
        simp only [hr] at h
        exact Except.noConfusion h
      | ok s1 =>
        simp only [hr] at h
        split at h
        · exact Except.noConfusion h
        · rename_i c2 hc
          cases hw : write_sp t2 s1.reqs c2 with
          | error e =>
            simp only [hw] at h
            exact Except.noConfusion h
          | ok s2 =>
            simp only [hw] at h
            rw [update_statistics_call_ok h, write_sp_ok hw, read_sp_ok hr]

section RatEval

attribute [local semireducible] Rat.sub Rat.add

/-- Witness for C9: one admitted timestamp `10` with limit 1 and window 60;
at time 30 the call is rejected with wait `40`, and a call at time 75
(strictly after `30 + 40`) is admitted. -/
theorem c9_rate_limiter_witness :
    is_allowed 1 60 30 [10] = ⟨false, some 40, [10]⟩ ∧
      (is_allowed 1 60 75 [10]).allowed = true := by
  obtain ⟨w, h1, -, -, -, h5⟩ := c9_rate_limiter 1 60 30 [10] (by decide)
    (by decide) (by decide) (by decide)
  have hcomp : is_allowed 1 60 30 [10] = ⟨false, some 40, [10]⟩ := by decide
  have hw : (40 : ℚ) = w :=
    Option.some.inj (congrArg AllowResult.waitTime (hcomp.symm.trans h1))
  subst hw
  exact ⟨hcomp, h5 75 (by decide)⟩

/-- Counterexample to C9 as stated: with limit 1 and window 60 and one
timestamp admitted at time 0, the call at time 30 is rejected with wait 30 —
but the retry at time 60, i.e. after waiting exactly the advertised wait
time, is rejected again (the boundary timestamp `0` is not evicted because
eviction requires `t < now - window` strictly), and this second rejection
even reports a wait time of `0`, which is not positive. -/
theorem c9_counterexample :
    is_allowed 1 60 30 [0] = ⟨false, some 30, [0]⟩ ∧
      (is_allowed 1 60 60 [0]).allowed = false ∧
      (is_allowed 1 60 60 [0]).waitTime = some 0 := by
  decide

/-- Witness for C10: concrete successful runs of all five operations from an
empty limiter queue leave two, respectively three, admitted timestamps. -/
theorem c10_admission_counts_witness :
    c10run1.map MState.reqs = .ok [0, 1] ∧
    c10run2.map MState.reqs = .ok [0, 1] ∧
    c10run3.map MState.reqs = .ok [0, 1, 2] ∧
    c10run4.map MState.reqs = .ok [0, 1, 2] ∧
    c10run5.map MState.reqs = .ok [0, 1, 2] := by
  have hthm := c10_admission_counts ⟨[], templateLines "12/10/2025"⟩ "a" "t"
    "idea" "medium" "10:00" "12/10/2025" 0 1 2
  refine ⟨?_, ?_, ?_, ?_, ?_⟩
  · cases h : c10run1 with
    | error e =>
      have hok : c10run1.isOk = true := by decide
      rw [h] at hok
      simp [Except.isOk, Except.toBool] at hok
    | ok s2 =>
      simp only [Except.map]
      rw [hthm.1 s2 h]
      decide
  · cases h : c10run2 with
    | error e =>
      have hok : c10run2.isOk = true := by decide
      rw [h] at hok
      simp [Except.isOk, Except.toBool] at hok
    | ok s2 =>
      simp only [Except.map]
      rw [hthm.2.1 s2 h]
      decide
  · cases h : c10run3 with
    | error e =>
      have hok : c10run3.isOk = true := by decide
      rw [h] at hok
      simp [Except.isOk, Except.toBool] at hok
    | ok s3 =>
      simp only [Except.map]
      rw [hthm.2.2.1 s3 h]
      decide
  · cases h : c10run4 with
    | error e =>
      have hok : c10run4.isOk = true := by decide
      rw [h] at hok
      simp [Except.isOk, Except.toBool] at hok
    | ok s3 =>
      simp only [Except.map]
      rw [hthm.2.2.2.1 s3 h]
      decide
  · cases h : c10run5 with
    | error e =>
      have hok : c10run5.isOk = true := by decide
      rw [h] at hok
      simp [Except.isOk, Except.toBool] at hok
    | ok s3 =>
      simp only [Except.map]
      rw [hthm.2.2.2.2 s3 h]
      decide

end RatEval

end Scratchpad
